import Mathlib

/-!
# esm.sh module resolution: `server/esm.go`

A shallow embedding of `initESM`, `findESM` and `checkESM` from `server/esm.go`.

Go strings are embedded as `String`; the standard-library helpers the source calls
(`strings.HasPrefix`, `strings.TrimSuffix`, `path.Join`, ...) are written out over the
character lists. The collaborators whose code lives outside `esm.go` (the file system,
the manifest reader, the normalizer `fixNpmPackage`, `useDefinedExports`, the JavaScript
parser, the CJS analysis, the key-value store `db` and the artifact store `fs`) are
fields of the records `World` and `Stores`.
-/

set_option autoImplicit false

namespace Esm

/-! ## Go standard library helpers -/

/-- Go `error` values are represented by their message; `none` is the nil error. -/
abbrev Error := String

/-- Go `strings.HasPrefix`. -/
def hasPrefix (s pre : String) : Bool :=
  pre.data.isPrefixOf s.data

/-- Go `strings.HasSuffix`. -/
def hasSuffix (s suf : String) : Bool :=
  suf.data.reverse.isPrefixOf s.data.reverse

/-- Go `strings.TrimPrefix`: `s` without the leading `pre`, or `s` itself. -/
def trimPrefix (s pre : String) : String :=
  if hasPrefix s pre then ⟨s.data.drop pre.data.length⟩ else s

/-- Go `strings.TrimSuffix`: `s` without the trailing `suf`, or `s` itself. -/
def trimSuffix (s suf : String) : String :=
  if hasSuffix s suf then ⟨s.data.take (s.data.length - suf.data.length)⟩ else s

/-- Character-list body of `stringsReplace`. -/
def replaceChars (old : Char) (new : List Char) : List Char → List Char
  | [] => []
  | c :: cs => if c = old then new ++ replaceChars old new cs else c :: replaceChars old new cs

/-- Go `strings.Replace(s, old, new, -1)` for a one-character `old`: every occurrence
of `old` in `s` is replaced by `new`. -/
def stringsReplace (s : String) (old : Char) (new : String) : String :=
  ⟨replaceChars old new.data s.data⟩

/-- Whether `pat` occurs in the character list at some position. -/
def containsChars (pat : List Char) : List Char → Bool
  | [] => pat.isPrefixOf []
  | c :: cs => pat.isPrefixOf (c :: cs) || containsChars pat cs

/-- Go `strings.Contains`. -/
def stringsContains (s sub : String) : Bool :=
  containsChars sub.data s.data

/-- Split a character list at every `/`. -/
def splitSlash : List Char → List (List Char)
  | [] => [[]]
  | c :: cs =>
    if c = '/' then [] :: splitSlash cs
    else
      match splitSlash cs with
      | [] => [[c]]
      | h :: t => (c :: h) :: t

/-- One step of Go `path.Clean` over the path elements; `acc` holds the elements kept
so far, last one first. Empty and `.` elements are dropped, `..` removes the element
before it when there is one that is not itself `..`, and is otherwise kept on an
unrooted path and dropped on a rooted one. -/
def cleanStep (rooted : Bool) (acc : List (List Char)) (elem : List Char) : List (List Char) :=
  if elem = [] ∨ elem = ['.'] then acc
  else if elem = ['.', '.'] then
    match acc with
    | [] => if rooted then [] else [elem]
    | top :: rest => if top = ['.', '.'] then elem :: acc else rest
  else elem :: acc

/-- Join path elements with `/`. -/
def joinSlash : List (List Char) → List Char
  | [] => []
  | [e] => e
  | e :: es => e ++ '/' :: joinSlash es

/-- Go `path.Clean` on a character list. -/
def cleanChars (p : List Char) : List Char :=
  let rooted := p.head? = some '/'
  let kept := ((splitSlash p).foldl (cleanStep rooted) []).reverse
  if rooted then '/' :: joinSlash kept
  else if kept = [] then ['.'] else joinSlash kept

/-- Go `path.Join`: leading empty elements are ignored, the rest is joined with `/`
and cleaned; the result is empty when every element is empty. -/
def pathJoin (elems : List String) : String :=
  match (elems.map String.data).dropWhile (fun e => e.isEmpty) with
  | [] => ""
  | es => ⟨cleanChars (joinSlash es)⟩

/-- Scan for Go `path.Ext`, over the reversed path: `acc` is the text after the
current position. -/
def extScan : List Char → List Char → List Char
  | [], _ => []
  | c :: cs, acc => if c = '/' then [] else if c = '.' then c :: acc else extScan cs (c :: acc)

/-- Go `path.Ext`: the suffix of the last path element starting at its last dot. -/
def pathExt (p : String) : String :=
  ⟨extScan p.data.reverse []⟩

/-! ## Data model -/

/-- A decoded JSON value, as Go's `interface{}` holds it after `encoding/json`:
`null` is the nil interface, `obj` is `map[string]interface{}` with its entries in
the order a `range` loop visits them. -/
inductive JSON where
  | null : JSON
  | bool (b : Bool) : JSON
  | num (literal : String) : JSON
  | str (s : String) : JSON
  | arr (items : List JSON) : JSON
  | obj (entries : List (String × JSON)) : JSON

/-- Modelled from the spec: the package manifest `NpmPackage` (declared outside
`esm.go`), with the fields `esm.go` reads and writes. An empty string is an
undeclared field; `DefinedExports` is the raw `exports` tree. -/
structure NpmPackage where
  Name : String
  Version : String
  Main : String
  Module : String
  Types : String
  Typings : String
  DefinedExports : JSON

/-- The entry fields of a manifest: `main`, `module`, `types`, `typings`. -/
def entryFields (p : NpmPackage) : String × String × String × String :=
  (p.Main, p.Module, p.Types, p.Typings)

/-- The ES module meta `ESM`: the embedded manifest and the export information. -/
structure ESM where
  NpmPackage : NpmPackage
  ExportDefault : Bool
  Exports : List String
  Dts : String

/-- Modelled from the spec: the request identity `pkg` (declared outside `esm.go`). -/
structure Pkg where
  name : String
  version : String
  submodule : String

/-- The export style `js_ast.ExportsKind` of a parsed file. -/
inductive ExportsKind where
  | ExportsNone
  | ExportsCommonJS
  | ExportsESM
  deriving DecidableEq

/-- The part of `js_ast.AST` that `checkESM` reads; `NamedExports` lists the keys of
the named-export map. -/
structure AST where
  ExportsKind : ExportsKind
  NamedExports : List String

/-- The result of `parseCJSModuleExports`: the export names and a diagnostic. -/
structure CJSExports where
  Exports : List String
  Error : String

/-- The collaborators of `initESM` and `checkESM`. `parse` is `js_parser.Parse`, whose
`(ast, pass)` result is `some ast` when `pass` is true and `none` otherwise;
`useDefinedExports` returns the manifest it updates in place. -/
structure World where
  parseJSONFile : String → Except Error NpmPackage
  fileExists : String → Bool
  dirExists : String → Bool
  readFile : String → Except Error String
  parse : String → Option AST
  fixNpmPackage : NpmPackage → NpmPackage
  useDefinedExports : NpmPackage → JSON → NpmPackage
  importPath : Pkg → String
  parseCJSModuleExports : String → String → String → Except Error CJSExports

/-! ## `initESM`: the export-map scan (lines 69-108) -/

/-- The wildcard test of line 93: the key ends in `/*` and `"./"+submodule` starts with
the key minus its trailing `*`. -/
def wildcardMatch (name submodule : String) : Bool :=
  hasSuffix name "/*" && hasPrefix ("./" ++ submodule) (trimSuffix name "*")

/-- The `suffix` of line 94. -/
def wildcardSuffix (name submodule : String) : String :=
  trimPrefix ("./" ++ submodule) (trimSuffix name "*")

/-- Lines 97-100 on one entry of the condition object: a string value has every `*`
replaced by `suffix`, any other value stays. -/
def substEntry (suffix : String) (entry : String × JSON) : String × JSON :=
  match entry.2 with
  | .str s => (entry.1, .str (stringsReplace s '*' suffix))
  | _ => entry

/-- Lines 95-102: the value of a wildcard key after the update of its condition object;
a value that is not an object is left alone. Go updates the object in place, so the
raw exports tree shows the substituted strings afterwards wherever it is still
referenced; the embedding hands the updated object to `useDefinedExports` and leaves
the `DefinedExports` field as decoded. The statements below read the entry fields
`main`, `module`, `types`, `typings` and the export information only. -/
def substConditions (suffix : String) (v : JSON) : JSON :=
  match v with
  | .obj m => .obj (m.map (substEntry suffix))
  | _ => v

/-- The `range` loop of lines 72-106 over the entries of the exports map, in the order
the loop visits them. The state is the manifest being updated and the flag `defined`;
`use` is `useDefinedExports`. The exact branch stops the loop, the wildcard branch
goes on to the next key. -/
def exportsScan {α : Type} (use : α → JSON → α) (submodule : String) :
    List (String × JSON) → α × Bool → α × Bool
  | [], st => st
  | (name, v) :: rest, st =>
    if name = "./" ++ submodule then (use st.1 v, true)
    else if wildcardMatch name submodule then
      exportsScan use submodule rest
        (use st.1 (substConditions (wildcardSuffix name submodule) v), true)
    else exportsScan use submodule rest st

/-- The arguments `useDefinedExports` receives during the scan, in call order: the scan
run with a state that records every value passed to `use`. -/
def scanCalls (submodule : String) (m : List (String × JSON)) : List JSON :=
  (exportsScan (fun calls v => calls ++ [v]) submodule m ([], false)).1

/-- Lines 70-108: the scan runs only when the raw root manifest's `exports` is an
object. -/
def scanDefinedExports (w : World) (submodule : String) (p : NpmPackage) (np : NpmPackage) :
    NpmPackage × Bool :=
  match p.DefinedExports with
  | .obj m => exportsScan w.useDefinedExports submodule m (np, false)
  | _ => (np, false)

/-- Lines 109-117: the bare fallback when no exports key matched. -/
def bareFallback (submodule : String) (np : NpmPackage) : NpmPackage :=
  let q := if np.Module ≠ "" then { np with Module := submodule } else { np with Main := submodule }
  { q with Types := "", Typings := "" }

/-- Lines 47-67: the four entry fields taken from the submodule manifest `p`; `Module`
is read from `fixNpmPackage p`, the other three from `p` itself. -/
def overrideFromSubmodule (w : World) (submodule : String) (p : NpmPackage) (np : NpmPackage) :
    NpmPackage :=
  { np with
    Main := if p.Main ≠ "" then pathJoin [submodule, p.Main] else ""
    Module := if (w.fixNpmPackage p).Module ≠ "" then
        pathJoin [submodule, (w.fixNpmPackage p).Module] else ""
    Types := if p.Types ≠ "" then pathJoin [submodule, p.Types] else ""
    Typings := if p.Typings ≠ "" then pathJoin [submodule, p.Typings] else "" }

/-- Lines 39-119: the submodule part of `initESM`. `p` is the raw root manifest and `esm`
the value built at line 35; the result is `esm` as updated and the error, if any. -/
def resolveSubmodule (w : World) (wd : String) (pkg : Pkg) (p : NpmPackage) (esm : ESM) :
    ESM × Option Error :=
  if pkg.submodule ≠ "" then
    let packageFile := pathJoin [wd, "node_modules", esm.NpmPackage.Name, pkg.submodule, "package.json"]
    if w.fileExists packageFile then
      match w.parseJSONFile packageFile with
      | .error err => (esm, some err)
      | .ok sp => ({ esm with NpmPackage := overrideFromSubmodule w pkg.submodule sp esm.NpmPackage }, none)
    else
      let scanned := scanDefinedExports w pkg.submodule p esm.NpmPackage
      if !scanned.2 then
        ({ esm with NpmPackage := bareFallback pkg.submodule scanned.1 }, none)
      else ({ esm with NpmPackage := scanned.1 }, none)
  else (esm, none)

/-! ## `checkESM` (lines 188-224) -/

/-- Lines 189-196: the module specifier after the directory probe. -/
def checkESMSpecifier (w : World) (wd packageName moduleSpecifier : String) : String :=
  let pkgDir := pathJoin [wd, "node_modules", packageName]
  if w.dirExists (pathJoin [pkgDir, moduleSpecifier]) then
    let f := pathJoin [moduleSpecifier, "index.mjs"]
    if !w.fileExists (pathJoin [pkgDir, f]) then pathJoin [moduleSpecifier, "index.js"] else f
  else moduleSpecifier

/-- Lines 197-202: the file `checkESM` reads. -/
def checkESMFilename (w : World) (wd packageName moduleSpecifier : String) : String :=
  let pkgDir := pathJoin [wd, "node_modules", packageName]
  let filename := pathJoin [pkgDir, checkESMSpecifier w wd packageName moduleSpecifier]
  if pathExt filename ∈ [".js", ".jsx", ".ts", ".tsx", ".mjs"] then filename else filename ++ ".js"

/-- The function `checkESM`: the results `(resolveName, exportDefault, err)`. -/
def checkESM (w : World) (wd packageName moduleSpecifier : String) :
    String × Bool × Option Error :=
  match w.readFile (checkESMFilename w wd packageName moduleSpecifier) with
  | .error err => ("", false, some err)
  | .ok data =>
    match w.parse data with
    | some ast =>
      if ast.ExportsKind ≠ ExportsKind.ExportsESM then ("", false, some "not a module")
      else (checkESMSpecifier w wd packageName moduleSpecifier,
            ast.NamedExports.contains "default", none)
    | none => (checkESMSpecifier w wd packageName moduleSpecifier, false, none)

/-! ## `initESM` (lines 26-163) -/

/-- The diagnostic of line 145. -/
def cjsMarker : String := "Unexpected export statement in CJS module"

/-- Lines 125-134: classification of the configured `module` field. -/
def classifyModule (w : World) (wd : String) (esm : ESM) : ESM :=
  if esm.NpmPackage.Module ≠ "" then
    match checkESM w wd esm.NpmPackage.Name esm.NpmPackage.Module with
    | (_, _, some _) => { esm with NpmPackage := { esm.NpmPackage with Module := "" } }
    | (resolved, exportDefault, none) =>
      { esm with NpmPackage := { esm.NpmPackage with Module := resolved },
                 ExportDefault := exportDefault }
  else esm

/-- Lines 136-161: the CJS analysis, run when no `module` is left. -/
def analyseCJS (w : World) (wd : String) (pkg : Pkg) (isDev : Bool) (esm : ESM) :
    Option ESM × Option Error :=
  if esm.NpmPackage.Module = "" then
    let nodeEnv := if isDev then "development" else "production"
    match w.parseCJSModuleExports wd (w.importPath pkg) nodeEnv with
    | .error err => (none, some ("parseCJSModuleExports: " ++ err))
    | .ok ret =>
      if stringsContains ret.Error cjsMarker then
        let target := if pkg.submodule ≠ "" then pkg.submodule else esm.NpmPackage.Main
        match checkESM w wd esm.NpmPackage.Name target with
        | (_, _, some err) => (none, some err)
        | (resolved, exportDefault, none) =>
          (some { esm with NpmPackage := { esm.NpmPackage with Module := resolved },
                           ExportDefault := exportDefault }, none)
      else (some { esm with Exports := ret.Exports, ExportDefault := true }, none)
  else (some esm, none)

/-- The function `initESM`: the results `(esm, err)`, `none` for a nil pointer or a nil
error. -/
def initESM (w : World) (wd : String) (pkg : Pkg) (checkExports : Bool) (isDev : Bool) :
    Option ESM × Option Error :=
  match w.parseJSONFile (pathJoin [wd, "node_modules", pkg.name, "package.json"]) with
  | .error err => (none, some err)
  | .ok p =>
    let esm : ESM :=
      { NpmPackage := w.fixNpmPackage p, ExportDefault := false, Exports := [], Dts := "" }
    match resolveSubmodule w wd pkg p esm with
    | (esm, some err) => (some esm, some err)
    | (esm, none) =>
      if !checkExports then (some esm, none)
      else analyseCJS w wd pkg isDev (classifyModule w wd esm)

/-! ## `findESM` (lines 165-186) -/

/-- A Go byte slice. -/
abbrev Bytes := List Nat

/-- A stored record, `map[string][]byte`. -/
abbrev Store := List (String × Bytes)

/-- The map index `store[key]`: the nil slice for a missing key. -/
def storeGet (store : Store) (key : String) : Bytes :=
  (store.lookup key).getD []

/-- Modelled from the spec: the key-value metadata store `db` (its code is outside
`esm.go`), with `get(id) -> mapping | NotFound` and `delete(id)`. -/
structure DB where
  records : List (String × Store)

/-- Modelled from the spec: `db.Get`, the record of `id` or a not-found error. -/
def DB.Get (db : DB) (id : String) : Except Error Store :=
  match db.records.lookup id with
  | some store => .ok store
  | none => .error "record not found"

/-- Modelled from the spec: `db.Delete`, which removes the record of `id`. -/
def DB.Delete (db : DB) (id : String) : DB :=
  ⟨db.records.filter (fun r => r.1 != id)⟩

/-- The collaborators of `findESM`: `unmarshal` is `json.Unmarshal` into the `*ESM`
result (the pointer it leaves and its error), `fsExists` is `fs.Exists`. -/
structure Stores where
  unmarshal : Bytes → Option ESM × Option Error
  fsExists : String → Bool × Option Error

/-- The function `findESM`: the results `(esm, pkgCSS, err)` and the store after the
call. -/
def findESM (S : Stores) (db : DB) (id : String) : (Option ESM × Bool × Option Error) × DB :=
  match db.Get id with
  | .error err => ((none, false, some err), db)
  | .ok store =>
    match S.unmarshal (storeGet store "esm") with
    | (esm, some err) => ((esm, false, some err), db.Delete id)
    | (esm, none) =>
      match S.fsExists (pathJoin ["builds", id]) with
      | (false, err) => ((esm, false, err), db.Delete id)
      | (true, err) =>
        match storeGet store "css" with
        | [1] =>
          let css := S.fsExists (pathJoin ["builds", trimSuffix id ".js" ++ ".css"])
          ((esm, css.1, css.2), db)
        | _ => ((esm, false, err), db)

/-! ## Sample collaborators, for evaluating the code on concrete packages -/

/-- The value of `key` in a condition object when it is a non-empty string. -/
def conditionString (m : List (String × JSON)) (key : String) : Option String :=
  match m.lookup key with
  | some (.str s) => if s ≠ "" then some s else none
  | _ => none

/-- Modelled from the spec: a sample of the condition-priority capability
`useDefinedExports` (its code is outside `esm.go`), which flattens a matched exports
value into `main`/`module`/`types`: a string value is the module entry; in a condition
object `import` gives `module`, `require` gives `main`, `types` gives `types`. -/
def sampleUseDefinedExports (p : NpmPackage) (defined : JSON) : NpmPackage :=
  match defined with
  | .str s => if s ≠ "" then { p with Module := s } else p
  | .obj m =>
    let p1 := match conditionString m "import" with
      | some s => { p with Module := s }
      | none => p
    let p2 := match conditionString m "require" with
      | some s => { p1 with Main := s }
      | none => p1
    match conditionString m "types" with
    | some s => { p2 with Types := s }
    | none => p2
  | _ => p

/-- Modelled from the spec: a sample of the normalizer `fixNpmPackage` (its code is
outside `esm.go`): when `module` is undeclared, the root-level exports (the `"."`
entry, or the exports object itself) are resolved with the condition priority. -/
def sampleFixNpmPackage (p : NpmPackage) : NpmPackage :=
  if p.Module = "" then
    match p.DefinedExports with
    | .obj m =>
      match m.lookup "." with
      | some v => sampleUseDefinedExports p v
      | none => sampleUseDefinedExports p (.obj m)
    | _ => p
  else p

/-- Modelled from the spec: the import path `name[/submodule]` of a request
(`pkg.ImportPath`, declared outside `esm.go`). -/
def sampleImportPath (pkg : Pkg) : String :=
  if pkg.submodule ≠ "" then pkg.name ++ "/" ++ pkg.submodule else pkg.name

/-- A world given by tables: the manifests on disk, the directories, the source files
with their contents, the parser's answer for each content, and the answer of the CJS
analysis. -/
def tableWorld (manifests : List (String × NpmPackage)) (dirs : List String)
    (files : List (String × String)) (parsed : List (String × Option AST))
    (cjs : Except Error CJSExports) : World where
  parseJSONFile path :=
    match manifests.lookup path with
    | some p => .ok p
    | none => .error ("open " ++ path ++ ": no such file or directory")
  fileExists path := (manifests.lookup path).isSome || (files.lookup path).isSome
  dirExists path := dirs.contains path
  readFile path :=
    match files.lookup path with
    | some data => .ok data
    | none => .error ("open " ++ path ++ ": no such file or directory")
  parse data := (parsed.lookup data).getD none
  fixNpmPackage := sampleFixNpmPackage
  useDefinedExports := sampleUseDefinedExports
  importPath := sampleImportPath
  parseCJSModuleExports _ _ _ := cjs

/-- A manifest with a name and version and nothing else declared. -/
def emptyManifest (name version : String) : NpmPackage :=
  { Name := name, Version := version, Main := "", Module := "", Types := "", Typings := "",
    DefinedExports := .null }

/-! ## Sample packages and stores -/

/-- The package `foo` of the bare-fallback example: `module` is `es/index.js`, no
exports field, no submodule manifest. -/
def fooWorld : World :=
  tableWorld
    [("/wd/node_modules/foo/package.json",
      { emptyManifest "foo" "1.0.0" with Main := "index.js", Module := "es/index.js",
                                         Types := "index.d.ts" })]
    [] [] [] (.ok { Exports := [], Error := "" })

/-- A package whose `module` entry is a file with a default export. -/
def defaultExportWorld : World :=
  tableWorld
    [("/wd/node_modules/foo/package.json",
      { emptyManifest "foo" "1.0.0" with Module := "es/index.js" })]
    [] [("/wd/node_modules/foo/es/index.js", "export default function(){}")]
    [("export default function(){}",
      some { ExportsKind := ExportsKind.ExportsESM, NamedExports := ["default"] })]
    (.ok { Exports := [], Error := "" })

/-- A package whose `module` entry is a CommonJS file. -/
def fakeModuleWorld : World :=
  tableWorld
    [("/wd/node_modules/foo/package.json",
      { emptyManifest "foo" "1.0.0" with Main := "index.js", Module := "es/index.js" })]
    [] [("/wd/node_modules/foo/es/index.js", "module.exports = {a: 1, b: 2}")]
    [("module.exports = {a: 1, b: 2}",
      some { ExportsKind := ExportsKind.ExportsCommonJS, NamedExports := [] })]
    (.ok { Exports := ["b", "a"], Error := "" })

/-- A package whose `main` is an ES module without a default export, reached through
the CJS analysis. -/
def reexportWorld : World :=
  tableWorld
    [("/wd/node_modules/foo/package.json",
      { emptyManifest "foo" "1.0.0" with Main := "index.js" })]
    [] [("/wd/node_modules/foo/index.js", "export const a = 1")]
    [("export const a = 1",
      some { ExportsKind := ExportsKind.ExportsESM, NamedExports := ["a"] })]
    (.ok { Exports := [], Error := "SyntaxError: Unexpected export statement in CJS module" })

/-- The submodule manifest of the example for the submodule override: it declares
`main` and an exports object, and no `module`. -/
def clientManifest : NpmPackage :=
  { emptyManifest "foo-client" "1.0.0" with
    Main := "index.js"
    DefinedExports := .obj [("import", .str "./index.mjs"), ("require", .str "./index.js")] }

/-- A package `foo` with a manifest in its `client` directory. -/
def clientWorld : World :=
  tableWorld
    [("/wd/node_modules/foo/package.json",
      { emptyManifest "foo" "1.0.0" with Main := "index.js", Types := "index.d.ts" }),
     ("/wd/node_modules/foo/client/package.json", clientManifest)]
    ["/wd/node_modules/foo/client"] [] [] (.ok { Exports := [], Error := "" })

/-- The highlight.js-style package of the wildcard example. -/
def languagesWorld : World :=
  tableWorld
    [("/wd/node_modules/hljs/package.json",
      { emptyManifest "hljs" "1.0.0" with
        Main := "lib/index.js"
        DefinedExports := .obj
          [("./lib/languages/*",
            .obj [("require", .str "./lib/languages/*.js"),
                  ("import", .str "./es/languages/*.js")])] })]
    [] [] [] (.ok { Exports := [], Error := "" })

/-- A package whose exports map has two wildcard keys matching `lib/languages/go`,
visited in this order. -/
def twoWildcardsWorld : World :=
  tableWorld
    [("/wd/node_modules/hljs/package.json",
      { emptyManifest "hljs" "1.0.0" with
        DefinedExports := .obj
          [("./lib/*", .obj [("require", .str "./cjs/*.js")]),
           ("./lib/languages/*", .obj [("import", .str "./es/languages/*.js")])] })]
    [] [] [] (.ok { Exports := [], Error := "" })

/-- The exact entry of the precedence example. -/
def coreExact : String × JSON :=
  ("./lib/core", .obj [("import", .str "./es/core.js")])

/-- The wildcard entry of the precedence example. -/
def coreWildcard : String × JSON :=
  ("./lib/*", .obj [("import", .str "./esm/*.js"), ("types", .str "./types/*.d.ts")])

/-- A package whose exports map holds the given entries, in the order the scan visits
them. -/
def coreWorld (entries : List (String × JSON)) : World :=
  tableWorld
    [("/wd/node_modules/foo/package.json",
      { emptyManifest "foo" "1.0.0" with Main := "index.js", DefinedExports := .obj entries })]
    [] [] [] (.ok { Exports := [], Error := "" })

/-- The stored module of the cache examples. -/
def cachedESM : ESM :=
  { NpmPackage := { emptyManifest "foo" "1.0.0" with Module := "index.js" },
    ExportDefault := true, Exports := [], Dts := "" }

/-- Stores given by tables: the records that decode (any other bytes are rejected as
truncated JSON, leaving the pointer nil) and the artifacts that exist. -/
def tableStores (decoded : List (Bytes × ESM)) (artifacts : List String) : Stores where
  unmarshal data :=
    match decoded.lookup data with
    | some esm => (some esm, none)
    | none => (none, some "unexpected end of JSON input")
  fsExists path := (artifacts.contains path, none)

/-- A store with a decodable record for `foo@1.0.0/foo.js` and a record for
`bar@1.0.0/bar.js` that does not decode. -/
def cacheDB : DB :=
  ⟨[("foo@1.0.0/foo.js", [("esm", [123, 125]), ("css", [1])]),
    ("bar@1.0.0/bar.js", [("esm", [123])])]⟩

/-! ## Lemmas on the export-map scan -/

theorem exportsScan_no_match {α : Type} (use : α → JSON → α) (submodule : String)
    (m : List (String × JSON)) (st : α × Bool)
    (h : ∀ kv ∈ m, kv.1 ≠ "./" ++ submodule ∧ wildcardMatch kv.1 submodule = false) :
    exportsScan use submodule m st = st := by
  induction m generalizing st with
  | nil => rfl
  | cons kv rest ih =>
    obtain ⟨name, v⟩ := kv
    have hk := h (name, v) (List.mem_cons_self _ _)
    have hrest : ∀ kv ∈ rest, kv.1 ≠ "./" ++ submodule ∧ wildcardMatch kv.1 submodule = false :=
      fun kv hkv => h kv (List.mem_cons_of_mem _ hkv)
    simp only [exportsScan, if_neg hk.1, hk.2, Bool.false_eq_true, if_false]
    exact ih st hrest

/-- The recording scan only appends to the calls it starts from. -/
theorem exportsScan_record (submodule : String) (m : List (String × JSON)) (calls : List JSON)
    (d : Bool) :
    (exportsScan (fun cs v => cs ++ [v]) submodule m (calls, d)).1 =
      calls ++ scanCalls submodule m := by
  induction m generalizing calls d with
  | nil => simp [exportsScan, scanCalls]
  | cons kv rest ih =>
    obtain ⟨name, v⟩ := kv
    by_cases hx : name = "./" ++ submodule
    · simp [exportsScan, scanCalls, hx]
    · by_cases hw : wildcardMatch name submodule = true
      · simp only [scanCalls, exportsScan, if_neg hx, hw, if_true]
        rw [ih, ih ([] ++ _)]
        simp [scanCalls]
      · have hw2 : wildcardMatch name submodule = false := by simpa using hw
        simp only [scanCalls, exportsScan, if_neg hx, hw2, Bool.false_eq_true, if_false]
        rw [ih, ih []]
        simp [scanCalls]

/-- The scan applies `use` to the recorded call arguments, in call order. -/
theorem exportsScan_fold_calls {α : Type} (use : α → JSON → α) (submodule : String)
    (m : List (String × JSON)) (a : α) (d : Bool) :
    (exportsScan use submodule m (a, d)).1 = (scanCalls submodule m).foldl use a := by
  induction m generalizing a d with
  | nil => simp [exportsScan, scanCalls]
  | cons kv rest ih =>
    obtain ⟨name, v⟩ := kv
    by_cases hx : name = "./" ++ submodule
    · simp [exportsScan, scanCalls, hx]
    · by_cases hw : wildcardMatch name submodule = true
      · simp only [scanCalls, exportsScan, if_neg hx, hw, if_true]
        rw [ih, exportsScan_record]
        simp [scanCalls]
      · have hw2 : wildcardMatch name submodule = false := by simpa using hw
        simp only [scanCalls, exportsScan, if_neg hx, hw2, Bool.false_eq_true, if_false]
        exact ih a d

/-- Once `defined` is set the scan keeps it set. -/
theorem exportsScan_defined {α : Type} (use : α → JSON → α) (submodule : String)
    (m : List (String × JSON)) (a : α) :
    (exportsScan use submodule m (a, true)).2 = true := by
  induction m generalizing a with
  | nil => rfl
  | cons kv rest ih =>
    obtain ⟨name, v⟩ := kv
    by_cases hx : name = "./" ++ submodule
    · simp [exportsScan, hx]
    · by_cases hw : wildcardMatch name submodule = true
      · simp only [exportsScan, if_neg hx, hw, if_true]
        exact ih _
      · have hw2 : wildcardMatch name submodule = false := by simpa using hw
        simp only [exportsScan, if_neg hx, hw2, Bool.false_eq_true, if_false]
        exact ih a

/-- The scan over a list splits at any point before which no key is the exact key. -/
theorem exportsScan_append {α : Type} (use : α → JSON → α) (submodule : String)
    (pre rest : List (String × JSON)) (st : α × Bool)
    (h : ∀ kv ∈ pre, kv.1 ≠ "./" ++ submodule) :
    exportsScan use submodule (pre ++ rest) st =
      exportsScan use submodule rest (exportsScan use submodule pre st) := by
  induction pre generalizing st with
  | nil => rfl
  | cons kv pre ih =>
    obtain ⟨name, v⟩ := kv
    have hk : name ≠ "./" ++ submodule := h (name, v) (List.mem_cons_self _ _)
    have hpre : ∀ kv ∈ pre, kv.1 ≠ "./" ++ submodule :=
      fun kv hkv => h kv (List.mem_cons_of_mem _ hkv)
    by_cases hw : wildcardMatch name submodule = true
    · simp only [List.cons_append, exportsScan, if_neg hk, hw, if_true]
      exact ih _ hpre
    · have hw2 : wildcardMatch name submodule = false := by simpa using hw
      simp only [List.cons_append, exportsScan, if_neg hk, hw2, Bool.false_eq_true, if_false]
      exact ih st hpre

/-! ## Lemmas on the metadata store -/

theorem lookup_filter_ne (id : String) (records : List (String × Store)) :
    (records.filter (fun r => r.1 != id)).lookup id = none := by
  induction records with
  | nil => rfl
  | cons r rest ih =>
    obtain ⟨k, store⟩ := r
    by_cases hk : k = id
    · have hb : (k != id) = false := by simp [hk]
      rw [List.filter_cons_of_neg (by simp [hb])]
      exact ih
    · have hb : (k != id) = true := by simpa using hk
      have hne : (id == k) = false := by simpa using fun h => hk h.symm
      rw [List.filter_cons_of_pos (by simp [hb]), List.lookup_cons, hne]
      exact ih

/-- After `db.Delete(id)` the store has no record for `id`. -/
theorem DB.Get_Delete (db : DB) (id : String) :
    (db.Delete id).Get id = .error "record not found" := by
  simp [DB.Get, DB.Delete, lookup_filter_ne]

/-! ## Lemmas on the stages of `initESM` -/

theorem scanDefinedExports_no_match (w : World) (submodule : String) (p np : NpmPackage)
    (h : ∀ m, p.DefinedExports = JSON.obj m →
      ∀ kv ∈ m, kv.1 ≠ "./" ++ submodule ∧ wildcardMatch kv.1 submodule = false) :
    scanDefinedExports w submodule p np = (np, false) := by
  unfold scanDefinedExports
  cases hd : p.DefinedExports with
  | obj m => exact exportsScan_no_match _ _ _ _ (h m hd)
  | _ => rfl

theorem classifyModule_of_error (w : World) (wd : String) (esm : ESM)
    (hmod : esm.NpmPackage.Module ≠ "")
    (hfail : (checkESM w wd esm.NpmPackage.Name esm.NpmPackage.Module).2.2 ≠ none) :
    classifyModule w wd esm = { esm with NpmPackage := { esm.NpmPackage with Module := "" } } := by
  unfold classifyModule
  rw [if_pos hmod]
  rcases hc : checkESM w wd esm.NpmPackage.Name esm.NpmPackage.Module with ⟨r, b, e⟩
  rw [hc] at hfail
  cases e with
  | none => exact absurd rfl hfail
  | some err => rfl

theorem classifyModule_of_empty (w : World) (wd : String) (esm : ESM)
    (hmod : esm.NpmPackage.Module = "") : classifyModule w wd esm = esm := by
  unfold classifyModule
  rw [if_neg (by simpa using hmod)]

/-! ## The claims -/

/-- C1, the code at the failing input. The record decodes and the artifact store
reports `builds/foo@1.0.0/foo.js` absent with a nil error: `findESM` deletes the record
and returns the decoded module with a nil error. -/
theorem findESM_stale_returns_module :
    findESM (tableStores [([123, 125], cachedESM)] []) cacheDB "foo@1.0.0/foo.js" =
      ((some cachedESM, false, none), ⟨[("bar@1.0.0/bar.js", [("esm", [123])])]⟩) := by
  rfl

/-- C2, the code at the failing input. For the submodule `lib/core` and the same two
exports entries, the order exact-then-wildcard gives the fields of the exact entry
alone, and the order wildcard-then-exact passes both entries to `useDefinedExports`
and gives `types` from the wildcard entry. -/
theorem initESM_wildcard_leaks_into_exact :
    (initESM (coreWorld [coreExact, coreWildcard]) "/wd" ⟨"foo", "1.0.0", "lib/core"⟩
        false false).1.map (fun esm => entryFields esm.NpmPackage) =
      some ("index.js", "./es/core.js", "", "") ∧
    (initESM (coreWorld [coreWildcard, coreExact]) "/wd" ⟨"foo", "1.0.0", "lib/core"⟩
        false false).1.map (fun esm => entryFields esm.NpmPackage) =
      some ("index.js", "./es/core.js", "./types/core.d.ts", "") ∧
    scanCalls "lib/core" [coreWildcard, coreExact] =
      [.obj [("import", .str "./esm/core.js"), ("types", .str "./types/core.d.ts")],
       .obj [("import", .str "./es/core.js")]] :=
  ⟨by decide, by decide, by rfl⟩

/-- C3, counterexample. Under the matching key `./lib/languages/*` the condition object
holds a string directly (`default`) and a string one level down (`node` / `import`);
the value passed to `useDefinedExports` has the first substituted and the second still
carrying its `*`. -/
theorem wildcard_nested_leaf_unsubstituted :
    scanCalls "lib/languages/go"
        [("./lib/languages/*",
          .obj [("node", .obj [("import", .str "./es/languages/*.js")]),
                ("default", .str "./lib/languages/*.js")])] =
      [.obj [("node", .obj [("import", .str "./es/languages/*.js")]),
             ("default", .str "./lib/languages/go.js")]] ∧
    "./es/languages/*.js" ≠ stringsReplace "./es/languages/*.js" '*' "go" :=
  ⟨by rfl, by decide⟩

/-- C3, amended. When the scan reaches a key ending in `/*` that matches the request
(no exact key was visited before it), `suffix` is `"./"+submodule` with the key's prefix
removed, and the key's condition object is passed to `useDefinedExports` with every `*`
replaced by `suffix` in each string that is a direct entry of the object; entries that
are not strings (nested condition objects among them) are passed as they are. The scan
then goes on with the remaining keys, and its outcome gives the entry fields of the
result. -/
theorem initESM_wildcard_substitution (w : World) (wd : String) (pkg : Pkg) (isDev : Bool)
    (p : NpmPackage) (pre post : List (String × JSON)) (name : String)
    (cond : List (String × JSON))
    (hroot : w.parseJSONFile (pathJoin [wd, "node_modules", pkg.name, "package.json"]) = .ok p)
    (hsub : pkg.submodule ≠ "")
    (hfile : w.fileExists (pathJoin [wd, "node_modules", (w.fixNpmPackage p).Name,
      pkg.submodule, "package.json"]) = false)
    (hexp : p.DefinedExports = JSON.obj (pre ++ (name, JSON.obj cond) :: post))
    (hpre : ∀ kv ∈ pre, kv.1 ≠ "./" ++ pkg.submodule)
    (hname : name ≠ "./" ++ pkg.submodule)
    (hends : hasSuffix name "/*" = true)
    (hstarts : hasPrefix ("./" ++ pkg.submodule) (trimSuffix name "*") = true) :
    ∃ esm, initESM w wd pkg false isDev = (some esm, none) ∧
      entryFields esm.NpmPackage = entryFields
        (exportsScan w.useDefinedExports pkg.submodule post
          (w.useDefinedExports
            (exportsScan w.useDefinedExports pkg.submodule pre (w.fixNpmPackage p, false)).1
            (JSON.obj (cond.map (fun entry =>
              match entry.2 with
              | JSON.str s =>
                (entry.1, JSON.str (stringsReplace s '*'
                  (trimPrefix ("./" ++ pkg.submodule) (trimSuffix name "*"))))
              | _ => entry))), true)).1 := by
  have hw : wildcardMatch name pkg.submodule = true := by
    simp [wildcardMatch, hends, hstarts]
  have hscan : scanDefinedExports w pkg.submodule p (w.fixNpmPackage p) =
      exportsScan w.useDefinedExports pkg.submodule post
        (w.useDefinedExports
          (exportsScan w.useDefinedExports pkg.submodule pre (w.fixNpmPackage p, false)).1
          (substConditions (wildcardSuffix name pkg.submodule) (JSON.obj cond)), true) := by
    simp only [scanDefinedExports, hexp]
    rw [exportsScan_append _ _ _ _ _ hpre]
    simp only [exportsScan, if_neg hname, hw, if_true]
  refine ⟨{ NpmPackage := (scanDefinedExports w pkg.submodule p (w.fixNpmPackage p)).1,
            ExportDefault := false, Exports := [], Dts := "" }, ?_, ?_⟩
  · simp only [initESM, hroot, resolveSubmodule, if_pos hsub, hfile, Bool.false_eq_true,
      if_false, hscan, exportsScan_defined, Bool.not_true, Bool.not_false, if_true]
  · rw [hscan]
    rfl

/-- C3, witness: key `./lib/languages/*`, leaf `./es/languages/*.js` and submodule
`lib/languages/go` give `./es/languages/go.js`. -/
theorem initESM_wildcard_substitution_witness :
    ∃ esm, initESM languagesWorld "/wd" ⟨"hljs", "1.0.0", "lib/languages/go"⟩ false false =
        (some esm, none) ∧
      entryFields esm.NpmPackage = ("./lib/languages/go.js", "./es/languages/go.js", "", "") :=
  initESM_wildcard_substitution languagesWorld "/wd" ⟨"hljs", "1.0.0", "lib/languages/go"⟩ false
    { emptyManifest "hljs" "1.0.0" with
      Main := "lib/index.js"
      DefinedExports := .obj
        [("./lib/languages/*",
          .obj [("require", .str "./lib/languages/*.js"),
                ("import", .str "./es/languages/*.js")])] }
    [] [] "./lib/languages/*"
    [("require", .str "./lib/languages/*.js"), ("import", .str "./es/languages/*.js")]
    (by rfl) (by decide) (by rfl) (by rfl) (fun _ h => nomatch h) (by decide)
    (by decide) (by decide)

/-- C4, the code at the failing input. Both wildcard keys match `lib/languages/go`:
the scan passes two entries to `useDefinedExports`, and the result carries `main` from
the first and `module` from the second. -/
theorem exportsScan_applies_two_wildcards :
    scanCalls "lib/languages/go"
        [("./lib/*", .obj [("require", .str "./cjs/*.js")]),
         ("./lib/languages/*", .obj [("import", .str "./es/languages/*.js")])] =
      [.obj [("require", .str "./cjs/languages/go.js")],
       .obj [("import", .str "./es/languages/go.js")]] ∧
    (initESM twoWildcardsWorld "/wd" ⟨"hljs", "1.0.0", "lib/languages/go"⟩ false false).1.map
        (fun esm => entryFields esm.NpmPackage) =
      some ("./cjs/languages/go.js", "./es/languages/go.js", "", "") :=
  ⟨by rfl, by decide⟩

/-- C5. For a package with no exports key matching the request (in particular with no
exports field), a non-empty submodule and no submodule `package.json`, `initESM` with
`checkExports` false returns a manifest whose `module` is the submodule path and whose
`main` is unchanged when the normalized root manifest has a `module`, and whose `main`
is the submodule path with `module` still empty otherwise; `types` and `typings` are
empty in both cases. -/
theorem initESM_bare_fallback (w : World) (wd : String) (pkg : Pkg) (isDev : Bool)
    (p : NpmPackage)
    (hroot : w.parseJSONFile (pathJoin [wd, "node_modules", pkg.name, "package.json"]) = .ok p)
    (hsub : pkg.submodule ≠ "")
    (hfile : w.fileExists (pathJoin [wd, "node_modules", (w.fixNpmPackage p).Name,
      pkg.submodule, "package.json"]) = false)
    (hkeys : ∀ m, p.DefinedExports = JSON.obj m →
      ∀ kv ∈ m, kv.1 ≠ "./" ++ pkg.submodule ∧ wildcardMatch kv.1 pkg.submodule = false) :
    ∃ esm, initESM w wd pkg false isDev = (some esm, none) ∧
      ((w.fixNpmPackage p).Module ≠ "" →
        esm.NpmPackage.Module = pkg.submodule ∧ esm.NpmPackage.Main = (w.fixNpmPackage p).Main) ∧
      ((w.fixNpmPackage p).Module = "" →
        esm.NpmPackage.Main = pkg.submodule ∧ esm.NpmPackage.Module = "") ∧
      esm.NpmPackage.Types = "" ∧ esm.NpmPackage.Typings = "" := by
  refine ⟨{ NpmPackage := bareFallback pkg.submodule (w.fixNpmPackage p),
            ExportDefault := false, Exports := [], Dts := "" }, ?_, ?_, ?_, rfl, rfl⟩
  · simp only [initESM, hroot, resolveSubmodule, if_pos hsub, hfile, Bool.false_eq_true,
      if_false, scanDefinedExports_no_match w pkg.submodule p _ hkeys, Bool.not_false, if_true]
  · intro hm
    simp [bareFallback, hm]
  · intro hm
    simp [bareFallback, hm]

/-- C5, witness: package `foo` with `module` `es/index.js` and submodule `bar` gives
`module` `bar`, `main` unchanged and empty `types`. -/
theorem initESM_bare_fallback_witness :
    ∃ esm, initESM fooWorld "/wd" ⟨"foo", "1.0.0", "bar"⟩ false false = (some esm, none) ∧
      ("es/index.js" ≠ "" →
        esm.NpmPackage.Module = "bar" ∧ esm.NpmPackage.Main = "index.js") ∧
      ("es/index.js" = "" →
        esm.NpmPackage.Main = "bar" ∧ esm.NpmPackage.Module = "") ∧
      esm.NpmPackage.Types = "" ∧ esm.NpmPackage.Typings = "" :=
  initESM_bare_fallback fooWorld "/wd" ⟨"foo", "1.0.0", "bar"⟩ false
    { emptyManifest "foo" "1.0.0" with
      Main := "index.js", Module := "es/index.js", Types := "index.d.ts" }
    (by rfl) (by decide) (by rfl) (fun m h => by cases h)

/-- C6, counterexample. The CJS diagnostic carries the marker, the retry of `checkESM`
on `main` succeeds, and the returned module has `exportDefault` false. -/
theorem initESM_retry_exportDefault_false :
    stringsContains "SyntaxError: Unexpected export statement in CJS module" cjsMarker = true ∧
    checkESM reexportWorld "/wd" "foo" "index.js" = ("index.js", false, none) ∧
    (initESM reexportWorld "/wd" ⟨"foo", "1.0.0", ""⟩ true false).1.map
        (fun esm => (esm.NpmPackage.Module, esm.ExportDefault)) = some ("index.js", false) ∧
    (initESM reexportWorld "/wd" ⟨"foo", "1.0.0", ""⟩ true false).2 = none :=
  ⟨by decide, by decide, by decide, by decide⟩

/-- C6, amended. With `checkExports` true, when no `module` is left after
classification and the CJS diagnostic contains the marker, `checkESM` is retried on the
submodule path (on `main` when there is no submodule): when the retry fails, `initESM`
fails with its error; when it succeeds, `initESM` returns with `module` the resolved
name and `exportDefault` the value the retry detected. -/
theorem initESM_retry_detected (w : World) (wd : String) (pkg : Pkg) (isDev : Bool)
    (p : NpmPackage) (esm1 : ESM) (ret : CJSExports)
    (hroot : w.parseJSONFile (pathJoin [wd, "node_modules", pkg.name, "package.json"]) = .ok p)
    (hstage : resolveSubmodule w wd pkg p
      { NpmPackage := w.fixNpmPackage p, ExportDefault := false, Exports := [], Dts := "" } =
        (esm1, none))
    (hmod : esm1.NpmPackage.Module = "" ∨
      (checkESM w wd esm1.NpmPackage.Name esm1.NpmPackage.Module).2.2 ≠ none)
    (hcjs : w.parseCJSModuleExports wd (w.importPath pkg)
      (if isDev then "development" else "production") = .ok ret)
    (hmark : stringsContains ret.Error cjsMarker = true) :
    (∀ resolved exportDefault err,
      checkESM w wd esm1.NpmPackage.Name
          (if pkg.submodule ≠ "" then pkg.submodule else esm1.NpmPackage.Main) =
        (resolved, exportDefault, some err) →
      initESM w wd pkg true isDev = (none, some err)) ∧
    (∀ resolved exportDefault,
      checkESM w wd esm1.NpmPackage.Name
          (if pkg.submodule ≠ "" then pkg.submodule else esm1.NpmPackage.Main) =
        (resolved, exportDefault, none) →
      ∃ esm, initESM w wd pkg true isDev = (some esm, none) ∧
        esm.NpmPackage.Module = resolved ∧ esm.ExportDefault = exportDefault) := by
  have hinit : initESM w wd pkg true isDev =
      match checkESM w wd esm1.NpmPackage.Name
          (if pkg.submodule ≠ "" then pkg.submodule else esm1.NpmPackage.Main) with
      | (_, _, some err) => (none, some err)
      | (resolved, exportDefault, none) =>
        (some { esm1 with NpmPackage := { esm1.NpmPackage with Module := resolved },
                          ExportDefault := exportDefault }, none) := by
    by_cases hm : esm1.NpmPackage.Module = ""
    · simp only [initESM, hroot, hstage, Bool.not_true, Bool.false_eq_true, if_false,
        classifyModule_of_empty w wd esm1 hm, analyseCJS, hm, if_true, hcjs, hmark]
    · have hfail := hmod.resolve_left hm
      simp only [initESM, hroot, hstage, Bool.not_true, Bool.false_eq_true, if_false,
        classifyModule_of_error w wd esm1 hm hfail, analyseCJS, if_true, hcjs, hmark]
  refine ⟨?_, ?_⟩
  · intro resolved exportDefault err hretry
    rw [hinit, hretry]
  · intro resolved exportDefault hretry
    rw [hinit, hretry]
    exact ⟨_, rfl, rfl, rfl⟩

/-- C6, witness: the retry on `main` succeeds on a file without a default export. -/
theorem initESM_retry_detected_witness :
    (∀ resolved exportDefault err,
      checkESM reexportWorld "/wd" "foo" "index.js" = (resolved, exportDefault, some err) →
      initESM reexportWorld "/wd" ⟨"foo", "1.0.0", ""⟩ true false = (none, some err)) ∧
    (∀ resolved exportDefault,
      checkESM reexportWorld "/wd" "foo" "index.js" = (resolved, exportDefault, none) →
      ∃ esm, initESM reexportWorld "/wd" ⟨"foo", "1.0.0", ""⟩ true false = (some esm, none) ∧
        esm.NpmPackage.Module = resolved ∧ esm.ExportDefault = exportDefault) :=
  initESM_retry_detected reexportWorld "/wd" ⟨"foo", "1.0.0", ""⟩ false
    { emptyManifest "foo" "1.0.0" with Main := "index.js" }
    { NpmPackage := { emptyManifest "foo" "1.0.0" with Main := "index.js" },
      ExportDefault := false, Exports := [], Dts := "" }
    { Exports := [], Error := "SyntaxError: Unexpected export statement in CJS module" }
    (by rfl) (by rfl) (Or.inl (by rfl)) (by rfl) (by decide)

/-- C7. For a candidate whose file is readable, `checkESM` fails with the error
`not a module` exactly when the parser reports a non-ESM export style for the file; in
every other case it succeeds, returns the resolved specifier, and `exportDefault` is
true exactly when the parser's named exports contain the name `default`. -/
theorem checkESM_classification (w : World) (wd packageName moduleSpecifier data : String)
    (hread : w.readFile (checkESMFilename w wd packageName moduleSpecifier) = .ok data) :
    ((checkESM w wd packageName moduleSpecifier).2.2 = some "not a module" ↔
        ∃ ast, w.parse data = some ast ∧ ast.ExportsKind ≠ ExportsKind.ExportsESM) ∧
      ((¬ ∃ ast, w.parse data = some ast ∧ ast.ExportsKind ≠ ExportsKind.ExportsESM) →
        (checkESM w wd packageName moduleSpecifier).2.2 = none ∧
        (checkESM w wd packageName moduleSpecifier).1 =
          checkESMSpecifier w wd packageName moduleSpecifier ∧
        ((checkESM w wd packageName moduleSpecifier).2.1 = true ↔
          ∃ ast, w.parse data = some ast ∧ "default" ∈ ast.NamedExports)) := by
  unfold checkESM
  rw [hread]
  cases hp : w.parse data with
  | none => simp [hp]
  | some ast =>
    by_cases hk : ast.ExportsKind = ExportsKind.ExportsESM
    · simp [hp, hk]
    · simp [hp, hk]

/-- C7, witness: a file containing `export default function(){}`. -/
theorem checkESM_classification_witness :
    ((checkESM defaultExportWorld "/wd" "foo" "es/index.js").2.2 = some "not a module" ↔
        ∃ ast, defaultExportWorld.parse "export default function(){}" = some ast ∧
          ast.ExportsKind ≠ ExportsKind.ExportsESM) ∧
      ((¬ ∃ ast, defaultExportWorld.parse "export default function(){}" = some ast ∧
          ast.ExportsKind ≠ ExportsKind.ExportsESM) →
        (checkESM defaultExportWorld "/wd" "foo" "es/index.js").2.2 = none ∧
        (checkESM defaultExportWorld "/wd" "foo" "es/index.js").1 =
          checkESMSpecifier defaultExportWorld "/wd" "foo" "es/index.js" ∧
        ((checkESM defaultExportWorld "/wd" "foo" "es/index.js").2.1 = true ↔
          ∃ ast, defaultExportWorld.parse "export default function(){}" = some ast ∧
            "default" ∈ ast.NamedExports)) :=
  checkESM_classification defaultExportWorld "/wd" "foo" "es/index.js"
    "export default function(){}" (by rfl)

/-- C8. With `checkExports` true, when the configured `module` field fails
classification (any error of `checkESM`), the request goes on: `module` is cleared and
the CJS analysis runs; when the analysis succeeds and its diagnostic does not contain
the ESM marker, `initESM` returns with a nil error, `module` empty, `main` as it was,
`exports` equal to the analysis's export names in the same order, and `exportDefault`
true. -/
theorem initESM_module_fallback (w : World) (wd : String) (pkg : Pkg) (isDev : Bool)
    (p : NpmPackage) (esm1 : ESM) (ret : CJSExports)
    (hroot : w.parseJSONFile (pathJoin [wd, "node_modules", pkg.name, "package.json"]) = .ok p)
    (hstage : resolveSubmodule w wd pkg p
      { NpmPackage := w.fixNpmPackage p, ExportDefault := false, Exports := [], Dts := "" } =
        (esm1, none))
    (hmod : esm1.NpmPackage.Module ≠ "")
    (hfail : (checkESM w wd esm1.NpmPackage.Name esm1.NpmPackage.Module).2.2 ≠ none)
    (hcjs : w.parseCJSModuleExports wd (w.importPath pkg)
      (if isDev then "development" else "production") = .ok ret)
    (hmark : stringsContains ret.Error cjsMarker = false) :
    ∃ esm, initESM w wd pkg true isDev = (some esm, none) ∧
      esm.NpmPackage.Module = "" ∧ esm.NpmPackage.Main = esm1.NpmPackage.Main ∧
      esm.Exports = ret.Exports ∧ esm.ExportDefault = true := by
  refine ⟨{ esm1 with NpmPackage := { esm1.NpmPackage with Module := "" },
                      Exports := ret.Exports, ExportDefault := true }, ?_, rfl, rfl, rfl, rfl⟩
  simp only [initESM, hroot, hstage, Bool.not_true, Bool.false_eq_true, if_false,
    classifyModule_of_error w wd esm1 hmod hfail, analyseCJS, if_true, hcjs, hmark]

/-- C8, witness: the `module` entry is a file with `module.exports = ...`, and the
analysis returns the names `b`, `a`. -/
theorem initESM_module_fallback_witness :
    ∃ esm, initESM fakeModuleWorld "/wd" ⟨"foo", "1.0.0", ""⟩ true false = (some esm, none) ∧
      esm.NpmPackage.Module = "" ∧ esm.NpmPackage.Main = "index.js" ∧
      esm.Exports = ["b", "a"] ∧ esm.ExportDefault = true :=
  initESM_module_fallback fakeModuleWorld "/wd" ⟨"foo", "1.0.0", ""⟩ false
    { emptyManifest "foo" "1.0.0" with Main := "index.js", Module := "es/index.js" }
    { NpmPackage := { emptyManifest "foo" "1.0.0" with Main := "index.js", Module := "es/index.js" },
      ExportDefault := false, Exports := [], Dts := "" }
    { Exports := ["b", "a"], Error := "" }
    (by rfl) (by rfl) (by decide) (by decide) (by rfl) (by decide)

/-- A missing record: `findESM` returns the error of `db.Get` and leaves the store. -/
theorem findESM_missing (S : Stores) (db : DB) (id : String) (err : Error)
    (hget : db.Get id = .error err) :
    findESM S db id = ((none, false, some err), db) := by
  simp [findESM, hget]

/-- A stale record: when the record decodes and the artifact is reported absent,
`findESM` deletes the record and returns what the decoder produced together with the
artifact store's error value. -/
theorem findESM_stale (S : Stores) (db : DB) (id : String) (store : Store)
    (esm : Option ESM) (err : Option Error)
    (hget : db.Get id = .ok store)
    (hdec : S.unmarshal (storeGet store "esm") = (esm, none))
    (hexists : S.fsExists (pathJoin ["builds", id]) = (false, err)) :
    findESM S db id = ((esm, false, err), db.Delete id) := by
  simp [findESM, hget, hdec, hexists]

/-- C9, counterexample. For the record that does not decode `findESM` returns the
decoder's error, for an id with no record it returns the store's not-found error: the
two outcomes differ, and the corruption reaches the caller as its own error. -/
theorem findESM_corrupt_error_distinct :
    (findESM (tableStores [([123, 125], cachedESM)] []) cacheDB "bar@1.0.0/bar.js").1.2.2 =
      some "unexpected end of JSON input" ∧
    (findESM (tableStores [([123, 125], cachedESM)] []) cacheDB "baz@1.0.0/baz.js").1.2.2 =
      some "record not found" ∧
    (findESM (tableStores [([123, 125], cachedESM)] []) cacheDB "bar@1.0.0/bar.js").1.2.2 ≠
      (findESM (tableStores [([123, 125], cachedESM)] []) cacheDB "baz@1.0.0/baz.js").1.2.2 :=
  ⟨by decide, by decide, by decide⟩

/-- C9, amended. For a build id whose stored `esm` record fails to deserialize,
`findESM` deletes the entry (a later `db.Get` finds no record) and reports a miss by
returning `hasCSS` false together with the deserialization error, which is not nil;
the module result is what the decoder left in the pointer. -/
theorem findESM_corrupt_record (S : Stores) (db : DB) (id : String) (store : Store)
    (esm : Option ESM) (err : Error)
    (hget : db.Get id = .ok store)
    (hbad : S.unmarshal (storeGet store "esm") = (esm, some err)) :
    findESM S db id = ((esm, false, some err), db.Delete id) ∧
      (findESM S db id).2.Get id = .error "record not found" := by
  have h : findESM S db id = ((esm, false, some err), db.Delete id) := by
    simp [findESM, hget, hbad]
  exact ⟨h, by rw [h]; exact DB.Get_Delete db id⟩

/-- C9, witness: the record of `bar@1.0.0/bar.js` holds truncated JSON. -/
theorem findESM_corrupt_record_witness :
    findESM (tableStores [([123, 125], cachedESM)] []) cacheDB "bar@1.0.0/bar.js" =
        ((none, false, some "unexpected end of JSON input"),
          cacheDB.Delete "bar@1.0.0/bar.js") ∧
      (findESM (tableStores [([123, 125], cachedESM)] []) cacheDB "bar@1.0.0/bar.js").2.Get
        "bar@1.0.0/bar.js" = .error "record not found" :=
  findESM_corrupt_record (tableStores [([123, 125], cachedESM)] []) cacheDB "bar@1.0.0/bar.js"
    [("esm", [123])] none "unexpected end of JSON input" (by rfl) (by rfl)

/-- C10, counterexample. The submodule manifest declares no `module`, and the result's
`module` is not empty: it is the join of the submodule directory with the `module` the
normalizer derived from the submodule manifest's exports. -/
theorem initESM_submodule_module_normalized :
    clientManifest.Module = "" ∧
    (initESM clientWorld "/wd" ⟨"foo", "1.0.0", "client"⟩ false false).1.map
        (fun esm => esm.NpmPackage.Module) = some "client/index.mjs" ∧
    (initESM clientWorld "/wd" ⟨"foo", "1.0.0", "client"⟩ false false).2 = none :=
  ⟨by decide, by decide, by decide⟩

/-- C10, amended. When `node_modules/<pkg>/<submodule>/package.json` exists and parses,
the result (with `checkExports` false) has `main`, `types` and `typings` equal to the
join of the submodule directory with the submodule manifest's own value of the field
when it declares one, and empty otherwise; `module` is the join of the submodule
directory with the `module` of the normalized submodule manifest when that is
non-empty, and empty otherwise. None of the four comes from the root manifest. -/
theorem initESM_submodule_manifest (w : World) (wd : String) (pkg : Pkg) (isDev : Bool)
    (p sp : NpmPackage)
    (hroot : w.parseJSONFile (pathJoin [wd, "node_modules", pkg.name, "package.json"]) = .ok p)
    (hsub : pkg.submodule ≠ "")
    (hfile : w.fileExists (pathJoin [wd, "node_modules", (w.fixNpmPackage p).Name,
      pkg.submodule, "package.json"]) = true)
    (hparse : w.parseJSONFile (pathJoin [wd, "node_modules", (w.fixNpmPackage p).Name,
      pkg.submodule, "package.json"]) = .ok sp) :
    ∃ esm, initESM w wd pkg false isDev = (some esm, none) ∧
      esm.NpmPackage.Main = (if sp.Main ≠ "" then pathJoin [pkg.submodule, sp.Main] else "") ∧
      esm.NpmPackage.Module = (if (w.fixNpmPackage sp).Module ≠ "" then
        pathJoin [pkg.submodule, (w.fixNpmPackage sp).Module] else "") ∧
      esm.NpmPackage.Types = (if sp.Types ≠ "" then pathJoin [pkg.submodule, sp.Types] else "") ∧
      esm.NpmPackage.Typings =
        (if sp.Typings ≠ "" then pathJoin [pkg.submodule, sp.Typings] else "") := by
  refine ⟨{ NpmPackage := overrideFromSubmodule w pkg.submodule sp (w.fixNpmPackage p),
            ExportDefault := false, Exports := [], Dts := "" }, ?_, rfl, rfl, rfl, rfl⟩
  simp only [initESM, hroot, resolveSubmodule, if_pos hsub, hfile, if_true, hparse,
    Bool.not_false]

/-- C10, witness: the package `foo` with a manifest in `client`; the root manifest's
`types` is not inherited. -/
theorem initESM_submodule_manifest_witness :
    ∃ esm, initESM clientWorld "/wd" ⟨"foo", "1.0.0", "client"⟩ false false = (some esm, none) ∧
      esm.NpmPackage.Main = "client/index.js" ∧
      esm.NpmPackage.Module = "client/index.mjs" ∧
      esm.NpmPackage.Types = "" ∧
      esm.NpmPackage.Typings = "" :=
  initESM_submodule_manifest clientWorld "/wd" ⟨"foo", "1.0.0", "client"⟩ false
    { emptyManifest "foo" "1.0.0" with Main := "index.js", Types := "index.d.ts" }
    clientManifest (by rfl) (by decide) (by rfl) (by rfl)

end Esm
